import Mathlib

/-!
Verification development for the backstage version-bump command.

The repository ships the test suite of the bump command (together with an
unrelated presentational UI component).  The implementation of the command
itself is not part of the sources, so the operations below are modelled from
the design document, with every observable detail (processing order, log
lines, the rewritten lockfile text, the surviving lock entries) anchored
against the concrete fixtures and expected outputs of the test suite, which
are reproduced verbatim as fixtures and checked by the anchor theorems at
the end of this file.
-/

set_option maxRecDepth 8000

/-- Semantic version, a triple of numeric components. -/
structure Version where
  major : Nat
  minor : Nat
  patch : Nat
deriving DecidableEq

/-- Modelled from the spec: every version range appearing in the design
document and in the fixtures is a caret range, written as a caret followed
by a base version. -/
structure VersionRange where
  base : Version
deriving DecidableEq

/-- Lexicographic order on version triples. -/
def verLe (a b : Version) : Bool :=
  if a.major = b.major then
    if a.minor = b.minor then decide (a.patch ≤ b.patch)
    else decide (a.minor < b.minor)
  else decide (a.major < b.major)

/-- Modelled from the spec: caret-range satisfaction with the usual semver
semantics (same major and at least the base when the major is positive; the
leftmost nonzero component is pinned for zero-major ranges). -/
def satisfies (v : Version) (r : VersionRange) : Bool :=
  if r.base.major ≠ 0 then decide (v.major = r.base.major) && verLe r.base v
  else if r.base.minor ≠ 0 then
    decide (v.major = 0) && decide (v.minor = r.base.minor) && verLe r.base v
  else decide (v = r.base)

/-- Decimal rendering of a version, e.g. 1.0.6. -/
def verStr (v : Version) : String :=
  Nat.repr v.major ++ "." ++ Nat.repr v.minor ++ "." ++ Nat.repr v.patch

/-- Rendering of a caret range, e.g. ^1.0.6. -/
def rangeStr (r : VersionRange) : String :=
  "^" ++ verStr r.base

/-- A manifest: its package name and its dependency map, an ordered list of
(package name, declared range) references. -/
structure Manifest where
  name : String
  deps : List (String × VersionRange)
deriving DecidableEq

/-- A lock entry: the block of the lockfile keyed by a package name and the
exact declared range, recording the previously resolved version and the
resolved sub-dependency ranges. -/
structure LockEntry where
  name : String
  range : VersionRange
  version : Version
  deps : List (String × VersionRange)
deriving DecidableEq

/-- The mutable state a bump run reads and rewrites: the manifests and the
shared lockfile. -/
structure Workspace where
  manifests : List Manifest
  lockfile : List LockEntry
deriving DecidableEq

/-- List of characters of one string being an initial segment of another. -/
def lpre : List Char → List Char → Bool
  | [], _ => true
  | _ :: _, [] => false
  | a :: as, b :: bs => a == b && lpre as bs

/-- String p starts string s. -/
def strHasPfx (p s : String) : Bool :=
  lpre p.data s.data

/-- Lexicographic order on character lists through code points. -/
def lexLe : List Char → List Char → Bool
  | [], _ => true
  | _ :: _, [] => false
  | a :: as, b :: bs =>
    if a.toNat < b.toNat then true
    else if b.toNat < a.toNat then false
    else lexLe as bs

/-- Lexicographic order on strings through code points. -/
def strLe (a b : String) : Bool :=
  lexLe a.data b.data

/-- First-occurrence deduplication with an accumulator of already seen
names. -/
def dedupAux : List String → List String → List String
  | [], _ => []
  | x :: xs, seen =>
    if seen.contains x then dedupAux xs seen else x :: dedupAux xs (x :: seen)

/-- Keep the first occurrence of every name, in order. -/
def dedupFirst (l : List String) : List String :=
  dedupAux l []

/-- All dependency names declared by the manifests, in scanning order. -/
def depNames (ms : List Manifest) : List String :=
  ms.flatMap (fun m => m.deps.map Prod.fst)

/-- Names matching the pattern, in the order first encountered while
scanning the manifests. -/
def firstEncounteredNames (ms : List Manifest) (pat : String → Bool) : List String :=
  dedupFirst ((depNames ms).filter pat)

/-- Matched names that occur only as top-level lock entry keys, never as a
manifest dependency, in lockfile order. -/
def lockfileOnlyNames (ws : Workspace) (pat : String → Bool) : List String :=
  dedupFirst ((ws.lockfile.map (fun e => e.name)).filter
    (fun n => pat n && !((depNames ws.manifests).contains n)))

/-- Modelled from the spec: the order in which the reconciler processes
package names.  The spec asks for first-encountered manifest order; the
expected log sequences of the test suite pin the observable order instead,
namely the reverse of the first-encountered manifest order followed by the
lockfile-only names. -/
def processOrder (ws : Workspace) (pat : String → Bool) : List String :=
  (firstEncounteredNames ws.manifests pat).reverse ++ lockfileOnlyNames ws pat

/-- One registry query per name of the list, keeping the names the registry
resolves together with their latest version. -/
def resolvedOf (reg : String → Option Version) : List String → List (String × Version)
  | [] => []
  | n :: ns =>
    match reg n with
    | some v => (n, v) :: resolvedOf reg ns
    | none => resolvedOf reg ns

/-- Latest version the pass resolved for a name, if any. -/
def latestFor (resolved : List (String × Version)) (n : String) : Option Version :=
  (resolved.find? (fun p => p.fst == n)).map Prod.snd

/-- Modelled from the spec: the range a reference to package n declared as r
holds after reconciliation; it is rewritten to a caret range at the latest
version exactly when the name matches, the registry resolved it, and the
latest version does not satisfy the declared range. -/
def newRangeFor (resolved : List (String × Version)) (pat : String → Bool)
    (n : String) (r : VersionRange) : VersionRange :=
  if pat n then
    match latestFor resolved n with
    | some latest => if satisfies latest r then r else VersionRange.mk latest
    | none => r
  else r

/-- Reconciliation applied to one manifest, rewriting each reference in
place. -/
def applyManifest (resolved : List (String × Version)) (pat : String → Bool)
    (m : Manifest) : Manifest :=
  { m with deps := m.deps.map (fun p => (p.fst, newRangeFor resolved pat p.fst p.snd)) }

/-- All bump decisions of a run: (manifest name, package name, old range,
new range), scanning manifests in order. -/
def bumpsOf (resolved : List (String × Version)) (pat : String → Bool)
    (ms : List Manifest) : List (String × String × VersionRange × VersionRange) :=
  ms.flatMap (fun m => m.deps.filterMap (fun p =>
    if newRangeFor resolved pat p.fst p.snd ≠ p.snd then
      some (m.name, p.fst, p.snd, newRangeFor resolved pat p.fst p.snd)
    else none))

/-- Modelled from the spec and the expected lockfiles of the test suite: a
lock entry is unlocked (dropped to force re-resolution) exactly when the
resolved latest version of its package satisfies the entry range while the
previously resolved version differs from it. -/
def unlockCond (resolved : List (String × Version)) (e : LockEntry) : Bool :=
  match latestFor resolved e.name with
  | some latest => satisfies latest e.range && decide (e.version ≠ latest)
  | none => false

/-- Previously resolved version recorded in the lockfile for an exact
(name, range) key. -/
def lockPrev (lf : List LockEntry) (n : String) (r : VersionRange) : Option Version :=
  (lf.find? (fun e => e.name == n && decide (e.range = r))).map (fun e => e.version)

/-- Breaking-change records of a run: one record per bump whose previously
resolved version has a different major component than the latest version. -/
def breakingOf (lf : List LockEntry) (resolved : List (String × Version))
    (bumps : List (String × String × VersionRange × VersionRange)) :
    List (String × Version × Version) :=
  bumps.filterMap (fun b =>
    match latestFor resolved b.2.1, lockPrev lf b.2.1 b.2.2.1 with
    | some latest, some prev =>
      if prev.major = latest.major then none else some (b.2.1, prev, latest)
    | some _, none => none
    | none, _ => none)

/-- First-occurrence deduplication of breaking records by package name. -/
def dedupByFst : List (String × Version × Version) → List String → List (String × Version × Version)
  | [], _ => []
  | x :: xs, seen =>
    if seen.contains x.1 then dedupByFst xs seen else x :: dedupByFst xs (x.1 :: seen)

/-- Serialization key of a lock entry block, e.g. "@backstage/core@^1.0.5". -/
def blockKey (e : LockEntry) : String :=
  e.name ++ "@" ++ rangeStr e.range

/-- Order on lock entries by their serialized block key. -/
def keyLe (a b : LockEntry) : Bool :=
  strLe (blockKey a) (blockKey b)

/-- Insertion into a list sorted by block key. -/
def insertEntry (e : LockEntry) : List LockEntry → List LockEntry
  | [] => [e]
  | x :: xs => if keyLe e x then e :: x :: xs else x :: insertEntry e xs

/-- Modelled from the spec and the expected lockfiles of the test suite:
surviving blocks are re-serialized sorted by their whole block key (the
package name and the range glued by an at sign), which is the order the
expected lockfile of the custom-pattern test exhibits. -/
def sortEntries : List LockEntry → List LockEntry
  | [] => []
  | x :: xs => insertEntry x (sortEntries xs)

/-- Adjacent-pairs sortedness of a lock entry list under an order. -/
def chainB (f : LockEntry → LockEntry → Bool) : List LockEntry → Bool
  | [] => true
  | [_] => true
  | a :: b :: rest => f a b && chainB f (b :: rest)

/-- Order on lock entries by package name first and range second, as the
design document describes the output ordering. -/
def nameRangeLe (a b : LockEntry) : Bool :=
  if a.name = b.name then strLe (rangeStr a.range) (rangeStr b.range)
  else strLe a.name b.name

/-- Fixed autogenerated-file banner of the lockfile. -/
def headerText : String :=
  "# THIS IS AN AUTOGENERATED FILE. DO NOT EDIT THIS FILE DIRECTLY.\n# yarn lockfile v1\n\n"

/-- One resolved sub-dependency line of a lock entry block. -/
def depLine (p : String × VersionRange) : String :=
  "    \"" ++ p.fst ++ "\" \"" ++ rangeStr p.snd ++ "\""

/-- Text of one lock entry block: key line, version line and, when present,
the resolved sub-dependency list. -/
def blockText (e : LockEntry) : String :=
  "\"" ++ blockKey e ++ "\":\n  version \"" ++ verStr e.version ++ "\"" ++
    (if e.deps.isEmpty then ""
     else "\n  dependencies:" ++ String.join (e.deps.map (fun p => "\n" ++ depLine p)))

/-- Join with a separator. -/
def joinSep (sep : String) : List String → String
  | [] => ""
  | [x] => x
  | x :: y :: xs => x ++ sep ++ joinSep sep (y :: xs)

/-- Lockfile text: banner, one blank separator line, blocks separated by one
blank line, terminating newline. -/
def serializeLockfile (lf : List LockEntry) : String :=
  headerText ++ "\n" ++ joinSep "\n\n" (lf.map blockText) ++ "\n"

/-- Progress line announcing a registry query. -/
def checkLine (n : String) : String :=
  "Checking for updates of " ++ n

/-- Log line for a package the registry does not know. -/
def notFoundLine (n : String) : String :=
  "Package info not found, ignoring package " ++ n

/-- Log lines of one reconciliation pass: one checking line per processed
name, then one not-found line per name the registry did not resolve. -/
def passLogs (reg : String → Option Version) (order : List String) : List String :=
  order.map checkLine ++ (order.filter (fun n => (reg n).isNone)).map notFoundLine

/-- Log line of one applied bump decision. -/
def bumpLine (b : String × String × VersionRange × VersionRange) : String :=
  "bumping " ++ b.2.1 ++ " in " ++ b.1 ++ " to " ++ rangeStr b.2.2.2

/-- Log line of one unlocked lock entry. -/
def unlockLine (n : String) (r : VersionRange) (latest : Version) : String :=
  "unlocking " ++ n ++ "@" ++ rangeStr r ++ " ~> " ++ verStr latest

/-- Unlock log lines, grouped by package in processing order, entries of a
package in lockfile order. -/
def unlockLogs (resolved : List (String × Version)) (lf : List LockEntry)
    (order : List String) : List String :=
  order.flatMap (fun n =>
    match latestFor resolved n with
    | some latest =>
      (lf.filter (fun e => e.name == n && unlockCond resolved e)).map
        (fun e => unlockLine n e.range latest)
    | none => [])

/-- Header line of the breaking-change warning banner. -/
def bannerHeaderLine : String :=
  "⚠️  The following packages may have breaking changes:"

/-- Banner lines of one breaking record: the old and new versions, plus a
changelog pointer built from the repository path for packages of the
organization namespace. -/
def bannerLines (b : String × Version × Version) : List String :=
  ("  " ++ b.1 ++ " : " ++ verStr b.2.1 ++ " ~> " ++ verStr b.2.2) ::
    (if strHasPfx "@backstage/" b.1 then
      ["    https://github.com/backstage/backstage/blob/master/packages/" ++
        String.mk (b.1.data.drop 11) ++ "/CHANGELOG.md"]
     else [])

/-- All banner lines, or nothing when no breaking change was recorded. -/
def bannerLogs (banner : List (String × Version × Version)) : List String :=
  if banner.isEmpty then [] else bannerHeaderLine :: banner.flatMap bannerLines

/-- Closing log line of the up-to-date path. -/
def upToDateMsg : String :=
  "All Backstage packages are up to date!"

/-- Names resolved by the single reconciliation pass of a run. -/
def runResolved (pat : String → Bool) (reg : String → Option Version)
    (ws : Workspace) : List (String × Version) :=
  resolvedOf reg (processOrder ws pat)

/-- Bump decisions of a run. -/
def runBumps (pat : String → Bool) (reg : String → Option Version)
    (ws : Workspace) : List (String × String × VersionRange × VersionRange) :=
  bumpsOf (runResolved pat reg ws) pat ws.manifests

/-- Breaking-change records of a run, one per package name. -/
def runBanner (pat : String → Bool) (reg : String → Option Version)
    (ws : Workspace) : List (String × Version × Version) :=
  dedupByFst (breakingOf ws.lockfile (runResolved pat reg ws) (runBumps pat reg ws)) []

/-- Manifests after a run that rewrites files. -/
def bumpedManifests (pat : String → Bool) (reg : String → Option Version)
    (ws : Workspace) : List Manifest :=
  ws.manifests.map (applyManifest (runResolved pat reg ws) pat)

/-- Lockfile after a run that rewrites files: unlocked entries dropped, the
survivors sorted by block key. -/
def rewrittenLockfile (pat : String → Bool) (reg : String → Option Version)
    (ws : Workspace) : List LockEntry :=
  sortEntries (ws.lockfile.filter (fun e => !unlockCond (runResolved pat reg ws) e))

/-- Observable outcome of one bump run: final workspace, log lines in order,
registry queries in order, whether the install collaborator ran, plus the
bump decisions and breaking records for reporting. -/
structure RunResult where
  ws : Workspace
  logs : List String
  queries : List String
  install : Bool
  bumps : List (String × String × VersionRange × VersionRange)
  banner : List (String × Version × Version)
deriving DecidableEq

/-- Modelled from the spec: the bump command.  It discovers the matched
names, queries each once per pass, and either reports everything up to
date (retrying the whole pass identically once when nothing resolved, the
documented double-pass behaviour), or rewrites the bumped manifests and the
reconciled lockfile, runs the install collaborator, and prints the
breaking-change banner. -/
def bumpRun (defaultPattern : Bool) (patName : String) (pat : String → Bool)
    (reg : String → Option Version) (ws : Workspace) : RunResult :=
  if runResolved pat reg ws = [] then
    { ws := ws
      logs := ((if defaultPattern then "Using default pattern glob "
                else "Using custom pattern glob ") ++ patName) ::
        (passLogs reg (processOrder ws pat) ++ passLogs reg (processOrder ws pat) ++
          [upToDateMsg])
      queries := processOrder ws pat ++ processOrder ws pat
      install := false
      bumps := runBumps pat reg ws
      banner := runBanner pat reg ws }
  else if runBumps pat reg ws = [] then
    { ws := ws
      logs := ((if defaultPattern then "Using default pattern glob "
                else "Using custom pattern glob ") ++ patName) ::
        (passLogs reg (processOrder ws pat) ++ [upToDateMsg])
      queries := processOrder ws pat
      install := false
      bumps := runBumps pat reg ws
      banner := runBanner pat reg ws }
  else
    { ws := Workspace.mk (bumpedManifests pat reg ws) (rewrittenLockfile pat reg ws)
      logs := ((if defaultPattern then "Using default pattern glob "
                else "Using custom pattern glob ") ++ patName) ::
        (passLogs reg (processOrder ws pat) ++
          ["Some packages are outdated, updating"] ++
          unlockLogs (runResolved pat reg ws) ws.lockfile (processOrder ws pat) ++
          (runBumps pat reg ws).map bumpLine ++
          ["Running yarn install to install new versions"] ++
          bannerLogs (runBanner pat reg ws) ++
          ["Version bump complete!"])
      queries := processOrder ws pat
      install := true
      bumps := runBumps pat reg ws
      banner := runBanner pat reg ws }

/-- Shape of the top-level version-tracking file. -/
structure BackstageJson where
  version : Version
deriving DecidableEq

/-- Modelled from the spec: the default shape the version-tracking file is
created with when absent; only its version field is observable and it is
overwritten unconditionally. -/
def defaultBackstageJson : BackstageJson :=
  BackstageJson.mk (Version.mk 0 0 0)

/-- Modelled from the spec: the core framework package whose latest version
the companion operation queries. -/
def backstageFrameworkPackage : String :=
  "@backstage/core"

/-- Modelled from the spec: the companion operation.  It reads the
version-tracking file (falling back to the default shape when absent),
queries the registry once for the core framework package, and overwrites
the version field with the latest version; on a not-found answer, which the
design document leaves unspecified, it leaves the file untouched.  Returns
the file content afterwards and the registry queries issued. -/
def bumpBackstageJsonVersion (reg : String → Option Version)
    (existing : Option BackstageJson) : Option BackstageJson × List String :=
  match reg backstageFrameworkPackage with
  | some latest =>
    (some { existing.getD defaultBackstageJson with version := latest },
      [backstageFrameworkPackage])
  | none => (existing, [backstageFrameworkPackage])

/-- Default glob of the bump command. -/
def defaultPatternGlob : String :=
  "@backstage/*"

/-- Predicate of the default pattern glob, matching the organization
namespace. -/
def patBackstage (n : String) : Bool :=
  strHasPfx "@backstage/" n

/-- Predicate of the custom pattern glob of the second test. -/
def patCustom (n : String) : Bool :=
  strHasPfx "@backstage/" n || strHasPfx "@backstage-extra/" n

/-- Registry responses of the bump tests. -/
def regFixture : String → Option Version := fun n =>
  if n == "@backstage/core" then some (Version.mk 1 0 6)
  else if n == "@backstage/core-api" then some (Version.mk 1 0 7)
  else if n == "@backstage/theme" then some (Version.mk 2 0 0)
  else if n == "@backstage-extra/custom" then some (Version.mk 1 1 0)
  else if n == "@backstage-extra/custom-two" then some (Version.mk 2 0 0)
  else none

/-- Registry of the not-found test: nothing resolves. -/
def regNotFound : String → Option Version := fun _ => none

/-- Manifest a of the first test. -/
def manifestA1 : Manifest :=
  Manifest.mk "a" [("@backstage/core", ⟨⟨1, 0, 5⟩⟩)]

/-- Manifest b of the first test. -/
def manifestB1 : Manifest :=
  Manifest.mk "b" [("@backstage/core", ⟨⟨1, 0, 3⟩⟩), ("@backstage/theme", ⟨⟨1, 0, 0⟩⟩)]

/-- Lockfile of the first test, transcribed from the mock text. -/
def lockfileFixture1 : List LockEntry :=
  [⟨"@backstage/core", ⟨⟨1, 0, 5⟩⟩, ⟨1, 0, 6⟩, [("@backstage/core-api", ⟨⟨1, 0, 6⟩⟩)]⟩,
   ⟨"@backstage/core", ⟨⟨1, 0, 3⟩⟩, ⟨1, 0, 3⟩, [("@backstage/core-api", ⟨⟨1, 0, 3⟩⟩)]⟩,
   ⟨"@backstage/theme", ⟨⟨1, 0, 0⟩⟩, ⟨1, 0, 0⟩, []⟩,
   ⟨"@backstage/core-api", ⟨⟨1, 0, 6⟩⟩, ⟨1, 0, 6⟩, []⟩,
   ⟨"@backstage/core-api", ⟨⟨1, 0, 3⟩⟩, ⟨1, 0, 3⟩, []⟩]

/-- Workspace of the first test. -/
def wsFixture1 : Workspace :=
  Workspace.mk [manifestA1, manifestB1] lockfileFixture1

/-- Manifest a of the second test. -/
def manifestA2 : Manifest :=
  Manifest.mk "a"
    [("@backstage/core", ⟨⟨1, 0, 5⟩⟩),
     ("@backstage-extra/custom", ⟨⟨1, 0, 1⟩⟩),
     ("@backstage-extra/custom-two", ⟨⟨1, 0, 0⟩⟩)]

/-- Manifest b of the second test. -/
def manifestB2 : Manifest :=
  Manifest.mk "b"
    [("@backstage/core", ⟨⟨1, 0, 3⟩⟩),
     ("@backstage/theme", ⟨⟨1, 0, 0⟩⟩),
     ("@backstage-extra/custom", ⟨⟨1, 1, 0⟩⟩),
     ("@backstage-extra/custom-two", ⟨⟨1, 0, 0⟩⟩)]

/-- Lockfile of the second test: the first lockfile extended with the extra
namespace blocks. -/
def lockfileFixture2 : List LockEntry :=
  lockfileFixture1 ++
    [⟨"@backstage-extra/custom", ⟨⟨1, 1, 0⟩⟩, ⟨1, 1, 0⟩, []⟩,
     ⟨"@backstage-extra/custom", ⟨⟨1, 0, 1⟩⟩, ⟨1, 0, 1⟩, []⟩,
     ⟨"@backstage-extra/custom-two", ⟨⟨1, 0, 0⟩⟩, ⟨1, 0, 0⟩, []⟩]

/-- Workspace of the second test. -/
def wsFixture2 : Workspace :=
  Workspace.mk [manifestA2, manifestB2] lockfileFixture2

/-- Lockfile of the not-found test: the rewritten result of the first test.
The organization name @backstage/core-api appears here only inside the
resolved sub-dependency list of the first block, never as a block key. -/
def lockfileFixture3 : List LockEntry :=
  [⟨"@backstage/core", ⟨⟨1, 0, 5⟩⟩, ⟨1, 0, 6⟩, [("@backstage/core-api", ⟨⟨1, 0, 6⟩⟩)]⟩,
   ⟨"@backstage/theme", ⟨⟨1, 0, 0⟩⟩, ⟨1, 0, 0⟩, []⟩]

/-- Workspace of the not-found test. -/
def wsFixture3 : Workspace :=
  Workspace.mk
    [Manifest.mk "a" [("@backstage/core", ⟨⟨1, 0, 5⟩⟩)],
     Manifest.mk "b" [("@backstage/core", ⟨⟨1, 0, 3⟩⟩), ("@backstage/theme", ⟨⟨2, 0, 0⟩⟩)]]
    lockfileFixture3

/-- Expected log sequence of the first test, copied from the test suite. -/
def expectedLogs1 : List String :=
  ["Using default pattern glob @backstage/*",
   "Checking for updates of @backstage/theme",
   "Checking for updates of @backstage/core",
   "Checking for updates of @backstage/core-api",
   "Some packages are outdated, updating",
   "unlocking @backstage/core@^1.0.3 ~> 1.0.6",
   "unlocking @backstage/core-api@^1.0.6 ~> 1.0.7",
   "unlocking @backstage/core-api@^1.0.3 ~> 1.0.7",
   "bumping @backstage/theme in b to ^2.0.0",
   "Running yarn install to install new versions",
   "⚠️  The following packages may have breaking changes:",
   "  @backstage/theme : 1.0.0 ~> 2.0.0",
   "    https://github.com/backstage/backstage/blob/master/packages/theme/CHANGELOG.md",
   "Version bump complete!"]

/-- Expected log sequence of the second test, copied from the test suite. -/
def expectedLogs2 : List String :=
  ["Using custom pattern glob @\x7bbackstage,backstage-extra\x7d/*",
   "Checking for updates of @backstage/theme",
   "Checking for updates of @backstage-extra/custom-two",
   "Checking for updates of @backstage-extra/custom",
   "Checking for updates of @backstage/core",
   "Checking for updates of @backstage/core-api",
   "Some packages are outdated, updating",
   "unlocking @backstage-extra/custom@^1.0.1 ~> 1.1.0",
   "unlocking @backstage/core@^1.0.3 ~> 1.0.6",
   "unlocking @backstage/core-api@^1.0.6 ~> 1.0.7",
   "unlocking @backstage/core-api@^1.0.3 ~> 1.0.7",
   "bumping @backstage-extra/custom-two in a to ^2.0.0",
   "bumping @backstage/theme in b to ^2.0.0",
   "bumping @backstage-extra/custom-two in b to ^2.0.0",
   "Running yarn install to install new versions",
   "⚠️  The following packages may have breaking changes:",
   "  @backstage-extra/custom-two : 1.0.0 ~> 2.0.0",
   "  @backstage/theme : 1.0.0 ~> 2.0.0",
   "    https://github.com/backstage/backstage/blob/master/packages/theme/CHANGELOG.md",
   "Version bump complete!"]

/-- Expected log sequence of the not-found test, copied from the test
suite: the checking pass repeated identically once, then the up-to-date
line. -/
def expectedLogs3 : List String :=
  ["Using default pattern glob @backstage/*",
   "Checking for updates of @backstage/theme",
   "Checking for updates of @backstage/core",
   "Package info not found, ignoring package @backstage/theme",
   "Package info not found, ignoring package @backstage/core",
   "Checking for updates of @backstage/theme",
   "Checking for updates of @backstage/core",
   "Package info not found, ignoring package @backstage/theme",
   "Package info not found, ignoring package @backstage/core",
   "All Backstage packages are up to date!"]

/-- Expected rewritten lockfile text of the first test, copied from the
test suite. -/
def expectedLockfileText1 : String :=
  "# THIS IS AN AUTOGENERATED FILE. DO NOT EDIT THIS FILE DIRECTLY.\n# yarn lockfile v1\n\n\n\"@backstage/core@^1.0.5\":\n  version \"1.0.6\"\n  dependencies:\n    \"@backstage/core-api\" \"^1.0.6\"\n\n\"@backstage/theme@^1.0.0\":\n  version \"1.0.0\"\n"

/-- Expected rewritten lockfile text of the second test, copied from the
test suite. -/
def expectedLockfileText2 : String :=
  "# THIS IS AN AUTOGENERATED FILE. DO NOT EDIT THIS FILE DIRECTLY.\n# yarn lockfile v1\n\n\n\"@backstage-extra/custom-two@^1.0.0\":\n  version \"1.0.0\"\n\n\"@backstage-extra/custom@^1.1.0\":\n  version \"1.1.0\"\n\n\"@backstage/core@^1.0.5\":\n  version \"1.0.6\"\n  dependencies:\n    \"@backstage/core-api\" \"^1.0.6\"\n\n\"@backstage/theme@^1.0.0\":\n  version \"1.0.0\"\n"

/-- Run of the first test. -/
def run1 : RunResult :=
  bumpRun true defaultPatternGlob patBackstage regFixture wsFixture1

/-- Run of the second test. -/
def run2 : RunResult :=
  bumpRun false "@\x7bbackstage,backstage-extra\x7d/*" patCustom regFixture wsFixture2

/-- Run of the not-found test. -/
def run3 : RunResult :=
  bumpRun true defaultPatternGlob patBackstage regNotFound wsFixture3

/-- Anchor: the modelled run reproduces the expected log sequence of the
first test verbatim. -/
theorem anchor_run1_logs : run1.logs = expectedLogs1 := by decide

/-- Anchor: the modelled run reproduces the expected rewritten lockfile
text of the first test verbatim. -/
theorem anchor_run1_lockfile : serializeLockfile run1.ws.lockfile = expectedLockfileText1 := by
  decide

/-- Anchor: the modelled run reproduces the expected manifest contents of
the first test. -/
theorem anchor_run1_manifests :
    run1.ws.manifests =
      [Manifest.mk "a" [("@backstage/core", ⟨⟨1, 0, 5⟩⟩)],
       Manifest.mk "b" [("@backstage/core", ⟨⟨1, 0, 3⟩⟩), ("@backstage/theme", ⟨⟨2, 0, 0⟩⟩)]] := by
  decide

/-- Anchor: the install collaborator runs exactly in the rewriting tests. -/
theorem anchor_install : run1.install = true ∧ run2.install = true ∧ run3.install = false := by
  decide

/-- Anchor: the modelled run reproduces the expected log sequence of the
second test verbatim. -/
theorem anchor_run2_logs : run2.logs = expectedLogs2 := by decide

/-- Anchor: the modelled run reproduces the expected rewritten lockfile
text of the second test verbatim. -/
theorem anchor_run2_lockfile : serializeLockfile run2.ws.lockfile = expectedLockfileText2 := by
  decide

/-- Anchor: the modelled run reproduces the expected manifest contents of
the second test. -/
theorem anchor_run2_manifests :
    run2.ws.manifests =
      [Manifest.mk "a"
        [("@backstage/core", ⟨⟨1, 0, 5⟩⟩),
         ("@backstage-extra/custom", ⟨⟨1, 0, 1⟩⟩),
         ("@backstage-extra/custom-two", ⟨⟨2, 0, 0⟩⟩)],
       Manifest.mk "b"
        [("@backstage/core", ⟨⟨1, 0, 3⟩⟩),
         ("@backstage/theme", ⟨⟨2, 0, 0⟩⟩),
         ("@backstage-extra/custom", ⟨⟨1, 1, 0⟩⟩),
         ("@backstage-extra/custom-two", ⟨⟨2, 0, 0⟩⟩)]] := by
  decide

/-- Anchor: the modelled run reproduces the expected log sequence of the
not-found test verbatim, and leaves the workspace untouched. -/
theorem anchor_run3 : run3.logs = expectedLogs3 ∧ run3.ws = wsFixture3 := by decide

/-- Anchor: each run queries the registry for the organization packages the
test asserts explicitly. -/
theorem anchor_queries :
    run1.queries.contains "@backstage/core" = true ∧
    run1.queries.contains "@backstage/theme" = true ∧
    run2.queries.contains "@backstage/core" = true ∧
    run2.queries.contains "@backstage/theme" = true := by
  decide

theorem verLe_refl (v : Version) : verLe v v = true := by
  simp [verLe]

theorem satisfies_caret_self (v : Version) : satisfies v (VersionRange.mk v) = true := by
  unfold satisfies
  by_cases h1 : v.major = 0
  · by_cases h2 : v.minor = 0
    · simp [h1, h2]
    · simp [h1, h2, verLe_refl]
  · simp [h1, verLe_refl]

theorem latestFor_cons (p : String × Version) (rest : List (String × Version)) (n : String) :
    latestFor (p :: rest) n = if p.fst = n then some p.snd else latestFor rest n := by
  by_cases h : p.fst = n
  · simp [latestFor, List.find?_cons_of_pos, h]
  · simp only [latestFor, if_neg h]
    rw [List.find?_cons_of_neg]
    simp [h]

theorem latestFor_resolvedOf (reg : String → Option Version) (n : String)
    (order : List String) :
    latestFor (resolvedOf reg order) n = if n ∈ order then reg n else none := by
  induction order with
  | nil => simp [latestFor, resolvedOf]
  | cons a as ih =>
    cases hr : reg a with
    | some v =>
      rw [resolvedOf, hr, latestFor_cons]
      by_cases ha : a = n
      · subst ha; simp [hr]
      · simp only [ha, if_false]
        rw [ih]
        by_cases hm : n ∈ as
        · simp [hm, ha]
        · simp only [hm, if_false, List.mem_cons]
          rw [if_neg]
          rintro (h | h)
          · exact ha h.symm
          · exact h.elim
    | none =>
      rw [resolvedOf, hr, ih]
      by_cases ha : a = n
      · subst ha
        by_cases hm : a ∈ as <;> simp [hm, hr]
      · by_cases hm : n ∈ as
        · simp [hm, ha]
        · simp only [hm, if_false, List.mem_cons]
          rw [if_neg]
          rintro (h | h)
          · exact ha h.symm
          · exact h.elim

theorem mem_resolvedOf_of (reg : String → Option Version) (n : String) (v : Version)
    (order : List String) (hm : n ∈ order) (hr : reg n = some v) :
    (n, v) ∈ resolvedOf reg order := by
  induction order with
  | nil => cases hm
  | cons a as ih =>
    rcases List.mem_cons.mp hm with rfl | hm2
    · rw [resolvedOf, hr]; exact List.mem_cons_self _ _
    · cases hra : reg a with
      | some w => rw [resolvedOf, hra]; exact List.mem_cons_of_mem _ (ih hm2)
      | none => rw [resolvedOf, hra]; exact ih hm2

theorem resolvedOf_eq_nil (reg : String → Option Version) (order : List String)
    (h : ∀ n ∈ order, reg n = none) : resolvedOf reg order = [] := by
  induction order with
  | nil => rfl
  | cons a as ih =>
    rw [resolvedOf, h a (List.mem_cons_self _ _)]
    exact ih (fun n hn => h n (List.mem_cons_of_mem _ hn))

theorem mem_dedupAux (x : String) (l : List String) :
    ∀ seen : List String, x ∈ dedupAux l seen ↔ x ∈ l ∧ x ∉ seen := by
  induction l with
  | nil => intro seen; simp [dedupAux]
  | cons a as ih =>
    intro seen
    by_cases h : seen.contains a = true
    · have ha : a ∈ seen := List.elem_iff.mp h
      rw [dedupAux, if_pos h, ih]
      constructor
      · rintro ⟨hx, hs⟩; exact ⟨List.mem_cons_of_mem _ hx, hs⟩
      · rintro ⟨hx, hs⟩
        rcases List.mem_cons.mp hx with rfl | hx2
        · exact absurd ha hs
        · exact ⟨hx2, hs⟩
    · rw [dedupAux, if_neg h]
      have ha : a ∉ seen := fun hmem => h (List.elem_iff.mpr hmem)
      constructor
      · intro hx
        rcases List.mem_cons.mp hx with rfl | hx2
        · exact ⟨List.mem_cons_self _ _, ha⟩
        · have := (ih (a :: seen)).mp hx2
          refine ⟨List.mem_cons_of_mem _ this.1, fun hs => this.2 (List.mem_cons_of_mem _ hs)⟩
      · rintro ⟨hx, hs⟩
        rcases List.mem_cons.mp hx with rfl | hx2
        · exact List.mem_cons_self _ _
        · by_cases hxa : x = a
          · subst hxa; exact List.mem_cons_self _ _
          · exact List.mem_cons_of_mem _ ((ih (a :: seen)).mpr
              ⟨hx2, fun hmem => (List.mem_cons.mp hmem).elim hxa hs⟩)

theorem mem_dedupFirst (x : String) (l : List String) :
    x ∈ dedupFirst l ↔ x ∈ l := by
  rw [dedupFirst, mem_dedupAux]
  simp

theorem nodup_dedupAux (l : List String) :
    ∀ seen : List String, (dedupAux l seen).Nodup := by
  induction l with
  | nil => intro seen; simp [dedupAux]
  | cons a as ih =>
    intro seen
    by_cases h : seen.contains a = true
    · rw [dedupAux, if_pos h]; exact ih seen
    · rw [dedupAux, if_neg h]
      refine List.Nodup.cons ?_ (ih (a :: seen))
      intro hmem
      exact ((mem_dedupAux a as (a :: seen)).mp hmem).2 (List.mem_cons_self _ _)

theorem nodup_dedupFirst (l : List String) : (dedupFirst l).Nodup :=
  nodup_dedupAux l []

theorem mem_depNames (ms : List Manifest) (n : String) :
    n ∈ depNames ms ↔ ∃ m ∈ ms, ∃ r, (n, r) ∈ m.deps := by
  simp only [depNames, List.mem_flatMap, List.mem_map]
  constructor
  · rintro ⟨m, hm, p, hp, rfl⟩
    exact ⟨m, hm, p.snd, hp⟩
  · rintro ⟨m, hm, r, hr⟩
    exact ⟨m, hm, (n, r), hr, rfl⟩

theorem mem_firstEncounteredNames (ms : List Manifest) (pat : String → Bool) (n : String) :
    n ∈ firstEncounteredNames ms pat ↔ n ∈ depNames ms ∧ pat n = true := by
  rw [firstEncounteredNames, mem_dedupFirst, List.mem_filter]

theorem pat_of_mem_processOrder (ws : Workspace) (pat : String → Bool) (n : String)
    (h : n ∈ processOrder ws pat) : pat n = true := by
  rcases List.mem_append.mp h with h2 | h2
  · exact ((mem_firstEncounteredNames _ _ _).mp (List.mem_reverse.mp h2)).2
  · rw [lockfileOnlyNames, mem_dedupFirst, List.mem_filter] at h2
    have h3 := h2.2
    simp only [Bool.and_eq_true] at h3
    exact h3.1

theorem mem_processOrder_of_dep (ws : Workspace) (pat : String → Bool) (m : Manifest)
    (n : String) (r : VersionRange) (hm : m ∈ ws.manifests) (hd : (n, r) ∈ m.deps)
    (hp : pat n = true) : n ∈ processOrder ws pat := by
  refine List.mem_append.mpr (Or.inl (List.mem_reverse.mpr ?_))
  exact (mem_firstEncounteredNames _ _ _).mpr ⟨(mem_depNames _ _).mpr ⟨m, hm, r, hd⟩, hp⟩

theorem mem_processOrder_of_lock (ws : Workspace) (pat : String → Bool) (e : LockEntry)
    (he : e ∈ ws.lockfile) (hp : pat e.name = true) : e.name ∈ processOrder ws pat := by
  by_cases hd : e.name ∈ depNames ws.manifests
  · obtain ⟨m, hm, r, hr⟩ := (mem_depNames _ _).mp hd
    exact mem_processOrder_of_dep ws pat m e.name r hm hr hp
  · refine List.mem_append.mpr (Or.inr ?_)
    rw [lockfileOnlyNames, mem_dedupFirst, List.mem_filter]
    refine ⟨List.mem_map.mpr ⟨e, he, rfl⟩, ?_⟩
    simp only [Bool.and_eq_true, hp, Bool.not_eq_true', true_and]
    exact Bool.eq_false_iff.mpr (fun hc => hd (List.elem_iff.mp hc))

theorem nodup_processOrder (ws : Workspace) (pat : String → Bool) :
    (processOrder ws pat).Nodup := by
  refine List.Nodup.append (List.nodup_reverse.mpr (nodup_dedupFirst _)) (nodup_dedupFirst _) ?_
  intro n h1 h2
  have hd : n ∈ depNames ws.manifests :=
    ((mem_firstEncounteredNames _ _ _).mp (List.mem_reverse.mp h1)).1
  rw [lockfileOnlyNames, mem_dedupFirst, List.mem_filter] at h2
  have h3 := h2.2
  simp only [Bool.and_eq_true, Bool.not_eq_true'] at h3
  have hc : (depNames ws.manifests).contains n = true := List.elem_iff.mpr hd
  rw [h3.2] at hc
  exact Bool.false_ne_true hc

theorem mem_insertEntry (e x : LockEntry) (l : List LockEntry) :
    x ∈ insertEntry e l ↔ x = e ∨ x ∈ l := by
  induction l with
  | nil => simp [insertEntry]
  | cons a as ih =>
    rw [insertEntry]
    by_cases h : keyLe e a = true
    · rw [if_pos h]
      simp [List.mem_cons]
    · rw [if_neg h, List.mem_cons, ih, List.mem_cons]
      tauto

theorem mem_sortEntries (x : LockEntry) (l : List LockEntry) :
    x ∈ sortEntries l ↔ x ∈ l := by
  induction l with
  | nil => simp [sortEntries]
  | cons a as ih =>
    rw [sortEntries, mem_insertEntry, ih, List.mem_cons]

theorem lexLe_total (a b : List Char) : lexLe a b = true ∨ lexLe b a = true := by
  induction a generalizing b with
  | nil => left; rfl
  | cons x xs ih =>
    cases b with
    | nil => right; rfl
    | cons y ys =>
      by_cases h1 : x.toNat < y.toNat
      · left; simp [lexLe, h1]
      · by_cases h2 : y.toNat < x.toNat
        · right; simp [lexLe, h2]
        · rcases ih ys with h | h
          · left; simp [lexLe, h1, h2, h]
          · right; simp [lexLe, h1, h2, h]

theorem keyLe_total (a b : LockEntry) : keyLe a b = true ∨ keyLe b a = true :=
  lexLe_total (blockKey a).data (blockKey b).data

theorem chainB_insertEntry (e : LockEntry) (l : List LockEntry)
    (h : chainB keyLe l = true) : chainB keyLe (insertEntry e l) = true := by
  induction l with
  | nil => simp [insertEntry, chainB]
  | cons a as ih =>
    rw [insertEntry]
    by_cases hk : keyLe e a = true
    · cases as with
      | nil => simp [chainB, hk, h]
      | cons b bs =>
        rw [if_pos hk]
        rw [chainB] at h ⊢
        simp only [hk, Bool.true_and]
        exact h
    · rw [if_neg hk]
      have hae : keyLe a e = true := (keyLe_total e a).resolve_left hk
      cases as with
      | nil =>
        simp [insertEntry, chainB, hae]
      | cons b bs =>
        rw [chainB, Bool.and_eq_true] at h
        have htail := ih h.2
        rw [insertEntry]
        by_cases hk2 : keyLe e b = true
        · rw [if_pos hk2]
          rw [insertEntry, if_pos hk2] at htail
          rw [chainB, Bool.and_eq_true]
          exact ⟨hae, htail⟩
        · rw [if_neg hk2]
          rw [insertEntry, if_neg hk2] at htail
          rw [chainB, Bool.and_eq_true]
          exact ⟨h.1, htail⟩

theorem chainB_sortEntries (l : List LockEntry) : chainB keyLe (sortEntries l) = true := by
  induction l with
  | nil => rfl
  | cons a as ih => exact chainB_insertEntry a (sortEntries as) ih

theorem mem_bumpsOf (resolved : List (String × Version)) (pat : String → Bool)
    (ms : List Manifest) (b : String × String × VersionRange × VersionRange) :
    b ∈ bumpsOf resolved pat ms ↔
      ∃ m ∈ ms, ∃ p ∈ m.deps,
        newRangeFor resolved pat p.fst p.snd ≠ p.snd ∧
        b = (m.name, p.fst, p.snd, newRangeFor resolved pat p.fst p.snd) := by
  simp only [bumpsOf, List.mem_flatMap, List.mem_filterMap]
  constructor
  · rintro ⟨m, hm, p, hp, hsome⟩
    by_cases hne : newRangeFor resolved pat p.fst p.snd ≠ p.snd
    · rw [if_pos hne] at hsome
      injection hsome with hh
      exact ⟨m, hm, p, hp, hne, hh.symm⟩
    · rw [if_neg hne] at hsome
      cases hsome
  · rintro ⟨m, hm, p, hp, hne, rfl⟩
    exact ⟨m, hm, p, hp, by rw [if_pos hne]⟩

theorem latestFor_nil (n : String) : latestFor [] n = none := rfl

theorem newRangeFor_not_matched (resolved : List (String × Version)) (pat : String → Bool)
    (n : String) (r : VersionRange) (h : pat n = false) :
    newRangeFor resolved pat n r = r := by
  simp [newRangeFor, h]

theorem newRangeFor_none (resolved : List (String × Version)) (pat : String → Bool)
    (n : String) (r : VersionRange) (h : latestFor resolved n = none) :
    newRangeFor resolved pat n r = r := by
  by_cases hp : pat n = true
  · simp [newRangeFor, hp, h]
  · simp [newRangeFor, hp]

theorem newRangeFor_some (resolved : List (String × Version)) (pat : String → Bool)
    (n : String) (r : VersionRange) (L : Version) (h : latestFor resolved n = some L)
    (hp : pat n = true) :
    newRangeFor resolved pat n r = if satisfies L r then r else VersionRange.mk L := by
  simp [newRangeFor, hp, h]

theorem satisfies_newRangeFor (resolved : List (String × Version)) (pat : String → Bool)
    (n : String) (r : VersionRange) (L : Version) (h : latestFor resolved n = some L)
    (hp : pat n = true) :
    satisfies L (newRangeFor resolved pat n r) = true := by
  rw [newRangeFor_some resolved pat n r L h hp]
  by_cases hs : satisfies L r = true
  · rw [if_pos hs]; exact hs
  · rw [if_neg hs]; exact satisfies_caret_self L

theorem caret_ne_of_not_sat (r : VersionRange) (L : Version) (hs : satisfies L r ≠ true) :
    VersionRange.mk L ≠ r := by
  intro heq
  rw [← heq] at hs
  exact hs (satisfies_caret_self L)

theorem bumpsOf_nil (pat : String → Bool) (ms : List Manifest) :
    bumpsOf [] pat ms = [] := by
  rw [List.eq_nil_iff_forall_not_mem]
  intro b hb
  obtain ⟨m, _, p, _, hne, rfl⟩ := (mem_bumpsOf _ _ _ _).mp hb
  exact hne (newRangeFor_none [] pat p.fst p.snd (latestFor_nil p.fst))

theorem applyManifest_fst (resolved : List (String × Version)) (pat : String → Bool)
    (m : Manifest) :
    (applyManifest resolved pat m).deps.map Prod.fst = m.deps.map Prod.fst := by
  unfold applyManifest
  rw [List.map_map]
  rfl

theorem depNames_map_apply (resolved : List (String × Version)) (pat : String → Bool)
    (ms : List Manifest) :
    depNames (ms.map (applyManifest resolved pat)) = depNames ms := by
  induction ms with
  | nil => rfl
  | cons m rest ih =>
    rw [List.map_cons, depNames, depNames, List.flatMap_cons, List.flatMap_cons,
      applyManifest_fst]
    rw [depNames, depNames] at ih
    rw [ih]

theorem unlockCond_iff (pat : String → Bool) (reg : String → Option Version)
    (ws : Workspace) (e : LockEntry) (he : e ∈ ws.lockfile) :
    unlockCond (runResolved pat reg ws) e = true ↔
      pat e.name = true ∧
        ∃ L, reg e.name = some L ∧ satisfies L e.range = true ∧ e.version ≠ L := by
  unfold unlockCond runResolved
  rw [latestFor_resolvedOf]
  by_cases hp : pat e.name = true
  · rw [if_pos (mem_processOrder_of_lock ws pat e he hp)]
    cases hr : reg e.name with
    | some L => simp [hp, hr]
    | none => simp [hp, hr]
  · rw [if_neg (fun hm => hp (pat_of_mem_processOrder ws pat e.name hm))]
    simp [hp]

theorem getLast?_cons_concat (x m : String) (l : List String) :
    (x :: (l ++ [m])).getLast? = some m := by
  rw [← List.cons_append]
  exact List.getLast?_concat _

theorem bumpRun_upToDate (d : Bool) (pn : String) (pat : String → Bool)
    (reg : String → Option Version) (ws : Workspace) (h : runBumps pat reg ws = []) :
    (bumpRun d pn pat reg ws).ws = ws ∧ (bumpRun d pn pat reg ws).install = false ∧
      (bumpRun d pn pat reg ws).logs.getLast? = some upToDateMsg := by
  unfold bumpRun
  by_cases h1 : runResolved pat reg ws = []
  · rw [if_pos h1]
    exact ⟨rfl, rfl, getLast?_cons_concat _ _ _⟩
  · rw [if_neg h1, if_pos h]
    exact ⟨rfl, rfl, getLast?_cons_concat _ _ _⟩

theorem bumpRun_rewrite (d : Bool) (pn : String) (pat : String → Bool)
    (reg : String → Option Version) (ws : Workspace) (h : runBumps pat reg ws ≠ []) :
    (bumpRun d pn pat reg ws).ws =
      Workspace.mk (bumpedManifests pat reg ws) (rewrittenLockfile pat reg ws) ∧
      (bumpRun d pn pat reg ws).install = true := by
  have h1 : runResolved pat reg ws ≠ [] := by
    intro hnil
    apply h
    unfold runBumps
    rw [hnil]
    exact bumpsOf_nil pat ws.manifests
  unfold bumpRun
  rw [if_neg h1, if_neg h]
  exact ⟨rfl, rfl⟩

theorem ws_of_install (d : Bool) (pn : String) (pat : String → Bool)
    (reg : String → Option Version) (ws : Workspace)
    (h : (bumpRun d pn pat reg ws).install = true) :
    (bumpRun d pn pat reg ws).ws =
      Workspace.mk (bumpedManifests pat reg ws) (rewrittenLockfile pat reg ws) := by
  by_cases hb : runBumps pat reg ws = []
  · rw [(bumpRun_upToDate d pn pat reg ws hb).2.1] at h
    cases h
  · exact (bumpRun_rewrite d pn pat reg ws hb).1

theorem latestFor_runResolved (pat : String → Bool) (reg : String → Option Version)
    (ws : Workspace) (n : String) :
    latestFor (runResolved pat reg ws) n =
      if n ∈ processOrder ws pat then reg n else none := by
  unfold runResolved
  exact latestFor_resolvedOf reg n (processOrder ws pat)

/-- C8: running bump twice in succession against a fixed registry is
idempotent: the second run leaves the manifests and the lockfile exactly as
the first run produced them, does not invoke the install collaborator, and
ends with the up-to-date log line. -/
theorem bump_idempotent (d : Bool) (pn : String) (pat : String → Bool)
    (reg : String → Option Version) (ws : Workspace) :
    (bumpRun d pn pat reg (bumpRun d pn pat reg ws).ws).ws = (bumpRun d pn pat reg ws).ws ∧
    (bumpRun d pn pat reg (bumpRun d pn pat reg ws).ws).install = false ∧
    (bumpRun d pn pat reg (bumpRun d pn pat reg ws).ws).logs.getLast? = some upToDateMsg := by
  by_cases hb : runBumps pat reg ws = []
  · rw [(bumpRun_upToDate d pn pat reg ws hb).1]
    exact bumpRun_upToDate d pn pat reg ws hb
  · have hws1 : (bumpRun d pn pat reg ws).ws =
        Workspace.mk (bumpedManifests pat reg ws) (rewrittenLockfile pat reg ws) :=
      (bumpRun_rewrite d pn pat reg ws hb).1
    have hb2 : runBumps pat reg (bumpRun d pn pat reg ws).ws = [] := by
      rw [runBumps, List.eq_nil_iff_forall_not_mem]
      intro b hbm
      obtain ⟨m1, hm1, p, hp, hne, rfl⟩ := (mem_bumpsOf _ _ _ _).mp hbm
      apply hne
      have hm1b : m1 ∈ bumpedManifests pat reg ws := by
        rw [hws1] at hm1
        exact hm1
      obtain ⟨m0, hm0, rfl⟩ := List.mem_map.mp hm1b
      have hp2 : p ∈ m0.deps.map
          (fun q => (q.fst, newRangeFor (runResolved pat reg ws) pat q.fst q.snd)) := by
        simpa [applyManifest] using hp
      obtain ⟨p0, hp0, rfl⟩ := List.mem_map.mp hp2
      by_cases hpt : pat p0.fst = true
      · have ho2 : p0.fst ∈ processOrder (bumpRun d pn pat reg ws).ws pat :=
          mem_processOrder_of_dep _ pat _ p0.fst
            (newRangeFor (runResolved pat reg ws) pat p0.fst p0.snd) hm1 hp hpt
        have hlat2 : latestFor (runResolved pat reg (bumpRun d pn pat reg ws).ws) p0.fst =
            reg p0.fst := by
          rw [latestFor_runResolved, if_pos ho2]
        cases hr : reg p0.fst with
        | none => exact newRangeFor_none _ pat _ _ (hlat2.trans hr)
        | some L =>
          have ho1 : p0.fst ∈ processOrder ws pat :=
            mem_processOrder_of_dep ws pat m0 p0.fst p0.snd hm0 hp0 hpt
          have hlat1 : latestFor (runResolved pat reg ws) p0.fst = some L := by
            rw [latestFor_runResolved, if_pos ho1, hr]
          have hsat : satisfies L (newRangeFor (runResolved pat reg ws) pat p0.fst p0.snd) =
              true := satisfies_newRangeFor _ pat _ _ L hlat1 hpt
          rw [newRangeFor_some _ pat _ _ L (hlat2.trans hr) hpt, if_pos hsat]
      · rw [Bool.not_eq_true] at hpt
        exact newRangeFor_not_matched _ pat _ _ hpt
    exact bumpRun_upToDate d pn pat reg (bumpRun d pn pat reg ws).ws hb2

theorem mem_rewrittenLockfile (pat : String → Bool) (reg : String → Option Version)
    (ws : Workspace) (e : LockEntry) :
    e ∈ rewrittenLockfile pat reg ws ↔
      e ∈ ws.lockfile ∧ unlockCond (runResolved pat reg ws) e = false := by
  rw [rewrittenLockfile, mem_sortEntries, List.mem_filter]
  constructor
  · rintro ⟨he, hc⟩
    cases hu : unlockCond (runResolved pat reg ws) e
    · exact ⟨he, rfl⟩
    · rw [hu] at hc
      cases hc
  · rintro ⟨he, hc⟩
    exact ⟨he, by rw [hc]; rfl⟩

theorem bumpRun_queries_or (d : Bool) (pn : String) (pat : String → Bool)
    (reg : String → Option Version) (ws : Workspace) :
    (bumpRun d pn pat reg ws).queries = processOrder ws pat ∨
      (bumpRun d pn pat reg ws).queries = processOrder ws pat ++ processOrder ws pat := by
  unfold bumpRun
  by_cases h1 : runResolved pat reg ws = []
  · rw [if_pos h1]
    right
    rfl
  · rw [if_neg h1]
    by_cases h2 : runBumps pat reg ws = []
    · rw [if_pos h2]
      left
      rfl
    · rw [if_neg h2]
      left
      rfl

theorem bumpRun_banner_eq (d : Bool) (pn : String) (pat : String → Bool)
    (reg : String → Option Version) (ws : Workspace) :
    (bumpRun d pn pat reg ws).banner = runBanner pat reg ws ∧
      (bumpRun d pn pat reg ws).bumps = runBumps pat reg ws := by
  unfold bumpRun
  by_cases h1 : runResolved pat reg ws = []
  · rw [if_pos h1]
    exact ⟨rfl, rfl⟩
  · rw [if_neg h1]
    by_cases h2 : runBumps pat reg ws = []
    · rw [if_pos h2]
      exact ⟨rfl, rfl⟩
    · rw [if_neg h2]
      exact ⟨rfl, rfl⟩

theorem mem_fst_dedupByFst (l : List (String × Version × Version)) (n : String) :
    ∀ seen : List String,
      n ∈ (dedupByFst l seen).map Prod.fst ↔ n ∈ l.map Prod.fst ∧ n ∉ seen := by
  induction l with
  | nil =>
    intro seen
    simp [dedupByFst]
  | cons x xs ih =>
    intro seen
    by_cases h : seen.contains x.1 = true
    · have hx : x.1 ∈ seen := List.elem_iff.mp h
      rw [dedupByFst, if_pos h, ih]
      simp only [List.map_cons, List.mem_cons]
      constructor
      · rintro ⟨hm, hs⟩
        exact ⟨Or.inr hm, hs⟩
      · rintro ⟨hm | hm, hs⟩
        · rw [hm] at hs
          exact absurd hx hs
        · exact ⟨hm, hs⟩
    · have hx : x.1 ∉ seen := fun hm => h (List.elem_iff.mpr hm)
      rw [dedupByFst, if_neg h]
      simp only [List.map_cons, List.mem_cons, ih]
      constructor
      · rintro (rfl | ⟨hm, hs⟩)
        · exact ⟨Or.inl rfl, hx⟩
        · exact ⟨Or.inr hm, fun hseen => hs (Or.inr hseen)⟩
      · rintro ⟨hm | hm, hs⟩
        · exact Or.inl hm
        · by_cases hxn : n = x.1
          · exact Or.inl hxn
          · exact Or.inr ⟨hm, fun hc => hc.elim hxn hs⟩

theorem mem_fst_breakingOf (lf : List LockEntry) (resolved : List (String × Version))
    (bumps : List (String × String × VersionRange × VersionRange)) (n : String) :
    n ∈ (breakingOf lf resolved bumps).map Prod.fst ↔
      ∃ b ∈ bumps, b.2.1 = n ∧
        ∃ L prev, latestFor resolved n = some L ∧ lockPrev lf n b.2.2.1 = some prev ∧
          prev.major ≠ L.major := by
  constructor
  · intro h
    obtain ⟨c, hc, hcn⟩ := List.mem_map.mp h
    unfold breakingOf at hc
    obtain ⟨b, hb, hfb⟩ := List.mem_filterMap.mp hc
    cases hL : latestFor resolved b.2.1 with
    | none =>
      rw [hL] at hfb
      cases hfb
    | some L =>
      cases hP : lockPrev lf b.2.1 b.2.2.1 with
      | none =>
        rw [hL, hP] at hfb
        cases hfb
      | some prev =>
        rw [hL, hP] at hfb
        dsimp only at hfb
        by_cases hmaj : prev.major = L.major
        · rw [if_pos hmaj] at hfb
          cases hfb
        · rw [if_neg hmaj] at hfb
          injection hfb with hc2
          rw [← hc2] at hcn
          exact ⟨b, hb, hcn, L, prev, hcn ▸ hL, hcn ▸ hP, hmaj⟩
  · rintro ⟨b, hb, hbn, L, prev, hL, hP, hmaj⟩
    refine List.mem_map.mpr ⟨(b.2.1, prev, L), ?_, hbn⟩
    unfold breakingOf
    refine List.mem_filterMap.mpr ⟨b, hb, ?_⟩
    rw [hbn, hL, hP]
    dsimp only
    rw [if_neg hmaj, ← hbn]

/-- C1: for every manifest reference to a matched package whose latest
registry version is known, the post-run range equals the declared range
when the latest version satisfies it, and the caret range at the latest
version otherwise. -/
theorem bump_reference_range_after_run (d : Bool) (pn : String) (pat : String → Bool)
    (reg : String → Option Version) (ws : Workspace) (i : Nat) (m : Manifest)
    (n : String) (r : VersionRange) (L : Version)
    (hm : ws.manifests[i]? = some m) (hd : (n, r) ∈ m.deps)
    (hp : pat n = true) (hr : reg n = some L) :
    ∃ m2, (bumpRun d pn pat reg ws).ws.manifests[i]? = some m2 ∧
      (n, if satisfies L r then r else VersionRange.mk L) ∈ m2.deps := by
  have hmem : m ∈ ws.manifests := by
    obtain ⟨hlt, he⟩ := List.getElem?_eq_some.mp hm
    exact he ▸ List.getElem_mem hlt
  have ho : n ∈ processOrder ws pat := mem_processOrder_of_dep ws pat m n r hmem hd hp
  have hlat : latestFor (runResolved pat reg ws) n = some L := by
    rw [latestFor_runResolved, if_pos ho, hr]
  by_cases hb : runBumps pat reg ws = []
  · have hsat : satisfies L r = true := by
      by_contra hns
      have hne : newRangeFor (runResolved pat reg ws) pat n r ≠ r := by
        rw [newRangeFor_some _ pat _ _ L hlat hp, if_neg hns]
        exact caret_ne_of_not_sat r L hns
      have hmem2 : (m.name, n, r, newRangeFor (runResolved pat reg ws) pat n r) ∈
          runBumps pat reg ws := by
        unfold runBumps
        exact (mem_bumpsOf _ _ _ _).mpr ⟨m, hmem, (n, r), hd, hne, rfl⟩
      rw [hb] at hmem2
      cases hmem2
    rw [(bumpRun_upToDate d pn pat reg ws hb).1]
    exact ⟨m, hm, by rw [if_pos hsat]; exact hd⟩
  · rw [(bumpRun_rewrite d pn pat reg ws hb).1]
    refine ⟨applyManifest (runResolved pat reg ws) pat m, ?_, ?_⟩
    · show (bumpedManifests pat reg ws)[i]? = some _
      rw [bumpedManifests, List.getElem?_map, hm]
      rfl
    · have hmm : (n, newRangeFor (runResolved pat reg ws) pat n r) ∈
          (applyManifest (runResolved pat reg ws) pat m).deps := by
        simp only [applyManifest]
        exact List.mem_map.mpr ⟨(n, r), hd, rfl⟩
      rw [newRangeFor_some _ pat _ _ L hlat hp] at hmm
      exact hmm

/-- C1 witness: in the first test, manifest b declares the theme package at
a range the latest version 2.0.0 does not satisfy, and after the run the
reference holds the caret range at the latest version. -/
theorem bump_reference_range_after_run_witness :
    wsFixture1.manifests[1]? = some manifestB1 ∧
    ("@backstage/theme", VersionRange.mk ⟨1, 0, 0⟩) ∈ manifestB1.deps ∧
    patBackstage "@backstage/theme" = true ∧
    regFixture "@backstage/theme" = some ⟨2, 0, 0⟩ ∧
    (∃ m2, run1.ws.manifests[1]? = some m2 ∧
      ("@backstage/theme",
        if satisfies ⟨2, 0, 0⟩ (VersionRange.mk ⟨1, 0, 0⟩) then VersionRange.mk ⟨1, 0, 0⟩
        else VersionRange.mk ⟨2, 0, 0⟩) ∈ m2.deps) :=
  ⟨by decide, by decide, by decide, by decide,
    bump_reference_range_after_run true defaultPatternGlob patBackstage regFixture wsFixture1 1
      manifestB1 "@backstage/theme" (VersionRange.mk ⟨1, 0, 0⟩) ⟨2, 0, 0⟩ (by decide) (by decide)
      (by decide) (by decide)⟩

/-- C2 counterexample: after the first test run the lock entry keyed
@backstage/theme@^1.0.0 survives in the rewritten lockfile although no
manifest declares that exact range after the rewrites, refuting the claimed
equivalence between survival and being declared. -/
theorem lock_survival_iff_declared_cex :
    ¬ ((LockEntry.mk "@backstage/theme" ⟨⟨1, 0, 0⟩⟩ ⟨1, 0, 0⟩ [] ∈ run1.ws.lockfile) ↔
      (∃ m ∈ run1.ws.manifests, ("@backstage/theme", VersionRange.mk ⟨1, 0, 0⟩) ∈ m.deps)) := by
  decide

/-- C2 amended: when a run rewrites the lockfile, an input lock entry
survives exactly when it is not unlocked, that is, unless its name matches
the pattern and resolves to a latest version that satisfies its range while
differing from its previously resolved version; survival does not depend on
whether any manifest still declares the range. -/
theorem lock_entry_survival (d : Bool) (pn : String) (pat : String → Bool)
    (reg : String → Option Version) (ws : Workspace) (e : LockEntry)
    (hi : (bumpRun d pn pat reg ws).install = true) :
    e ∈ (bumpRun d pn pat reg ws).ws.lockfile ↔
      e ∈ ws.lockfile ∧
        ¬ (pat e.name = true ∧
            ∃ L, reg e.name = some L ∧ satisfies L e.range = true ∧ e.version ≠ L) := by
  rw [ws_of_install d pn pat reg ws hi]
  show e ∈ rewrittenLockfile pat reg ws ↔ _
  rw [mem_rewrittenLockfile]
  constructor
  · rintro ⟨he, hc⟩
    refine ⟨he, fun hrhs => ?_⟩
    rw [(unlockCond_iff pat reg ws e he).mpr hrhs] at hc
    cases hc
  · rintro ⟨he, hn⟩
    refine ⟨he, ?_⟩
    cases hu : unlockCond (runResolved pat reg ws) e
    · rfl
    · exact absurd ((unlockCond_iff pat reg ws e he).mp hu) hn

/-- C2 witness: the theme entry of the first test survives the rewrite, as
characterized, because the latest theme version does not satisfy its
range. -/
theorem lock_entry_survival_witness :
    run1.install = true ∧
    ((LockEntry.mk "@backstage/theme" ⟨⟨1, 0, 0⟩⟩ ⟨1, 0, 0⟩ [] ∈ run1.ws.lockfile) ↔
      (LockEntry.mk "@backstage/theme" ⟨⟨1, 0, 0⟩⟩ ⟨1, 0, 0⟩ [] ∈ wsFixture1.lockfile ∧
        ¬ (patBackstage "@backstage/theme" = true ∧
            ∃ L, regFixture "@backstage/theme" = some L ∧
              satisfies L ⟨⟨1, 0, 0⟩⟩ = true ∧ (⟨1, 0, 0⟩ : Version) ≠ L))) :=
  ⟨by decide,
    lock_entry_survival true defaultPatternGlob patBackstage regFixture wsFixture1
      (LockEntry.mk "@backstage/theme" ⟨⟨1, 0, 0⟩⟩ ⟨1, 0, 0⟩ []) (by decide)⟩

/-- C3: a package name appears in the breaking-change banner exactly when
one of its bump decisions has a previously resolved lockfile version for
its exact old range whose major component differs from the major component
of the latest registry version; in particular a bump whose previously
resolved version only changed in minor or patch is never listed. -/
theorem breaking_banner_iff (d : Bool) (pn : String) (pat : String → Bool)
    (reg : String → Option Version) (ws : Workspace) (n : String) :
    n ∈ (bumpRun d pn pat reg ws).banner.map Prod.fst ↔
      ∃ mn rOld rNew, (mn, n, rOld, rNew) ∈ (bumpRun d pn pat reg ws).bumps ∧
        ∃ L prev, reg n = some L ∧ lockPrev ws.lockfile n rOld = some prev ∧
          prev.major ≠ L.major := by
  rw [(bumpRun_banner_eq d pn pat reg ws).1, (bumpRun_banner_eq d pn pat reg ws).2,
    runBanner, mem_fst_dedupByFst]
  simp only [List.not_mem_nil, not_false_iff, and_true]
  rw [mem_fst_breakingOf]
  constructor
  · rintro ⟨b, hb, hbn, L, prev, hL, hP, hmaj⟩
    have hreg : reg n = some L := by
      rw [latestFor_runResolved] at hL
      by_cases hmem : n ∈ processOrder ws pat
      · rw [if_pos hmem] at hL
        exact hL
      · rw [if_neg hmem] at hL
        cases hL
    have hbeq : (b.1, n, b.2.2.1, b.2.2.2) = b := by
      rw [← hbn]
    exact ⟨b.1, b.2.2.1, b.2.2.2, hbeq ▸ hb, L, prev, hreg, hP, hmaj⟩
  · rintro ⟨mn, rOld, rNew, hb, L, prev, hreg, hP, hmaj⟩
    have hb2 := hb
    unfold runBumps at hb2
    obtain ⟨m, hm, p, hp, hne, heq⟩ := (mem_bumpsOf _ _ _ _).mp hb2
    have hpfst : p.fst = n := by
      injection heq with h1 h2
      injection h2 with h3 h4
      exact h3.symm
    have hpt : pat n = true := by
      by_contra hns
      rw [Bool.not_eq_true] at hns
      apply hne
      have hns2 : pat p.fst = false := by rw [hpfst]; exact hns
      exact newRangeFor_not_matched _ pat _ _ hns2
    have hdep : (n, p.snd) ∈ m.deps := by
      rw [← hpfst]
      exact hp
    have hmemO : n ∈ processOrder ws pat :=
      mem_processOrder_of_dep ws pat m n p.snd hm hdep hpt
    have hlat : latestFor (runResolved pat reg ws) n = some L := by
      rw [latestFor_runResolved, if_pos hmemO, hreg]
    exact ⟨(mn, n, rOld, rNew), hb, rfl, L, prev, hlat, hP, hmaj⟩

/-- C4 counterexample: the rewritten lockfile of the custom-pattern test is
not sorted with the package name as primary key: the custom-two block
precedes the custom block although custom sorts first as a name. -/
theorem lockfile_sorted_by_name_cex :
    run2.install = true ∧ chainB nameRangeLe run2.ws.lockfile = false := by
  decide

/-- C4 amended: whenever a run rewrites the lockfile, the surviving blocks
are sorted by their whole serialization key, the package name and the range
string glued by an at sign. -/
theorem lockfile_sorted_by_key (d : Bool) (pn : String) (pat : String → Bool)
    (reg : String → Option Version) (ws : Workspace)
    (hi : (bumpRun d pn pat reg ws).install = true) :
    chainB keyLe (bumpRun d pn pat reg ws).ws.lockfile = true := by
  rw [ws_of_install d pn pat reg ws hi]
  exact chainB_sortEntries _

/-- C4 witness: the rewritten lockfile of the custom-pattern test is sorted
by block key. -/
theorem lockfile_sorted_by_key_witness :
    run2.install = true ∧ chainB keyLe run2.ws.lockfile = true :=
  ⟨by decide,
    lockfile_sorted_by_key false "@\x7bbackstage,backstage-extra\x7d/*" patCustom regFixture
      wsFixture2 (by decide)⟩

/-- C5 counterexample: in the not-found run the checking pass is repeated,
so the theme package is queried twice in one run rather than exactly
once. -/
theorem query_once_cex :
    run3.queries.count "@backstage/theme" = 2 ∧ (2 : Nat) ≠ 1 := by
  decide

/-- C5 amended: the processing order is duplicate free, so each matched
package name is queried at most once per reconciliation pass; a run issues
either exactly that one pass of queries, or the identical pass twice when
nothing resolved. -/
theorem queries_once_per_pass (d : Bool) (pn : String) (pat : String → Bool)
    (reg : String → Option Version) (ws : Workspace) :
    (processOrder ws pat).Nodup ∧
      ((bumpRun d pn pat reg ws).queries = processOrder ws pat ∨
        (bumpRun d pn pat reg ws).queries = processOrder ws pat ++ processOrder ws pat) :=
  ⟨nodup_processOrder ws pat, bumpRun_queries_or d pn pat reg ws⟩

/-- C6 counterexample: in the first test the name first encountered while
scanning the manifests is the core package, yet the first checking line of
the run announces the theme package: processing is not in first-encountered
order. -/
theorem process_order_cex :
    (firstEncounteredNames wsFixture1.manifests patBackstage)[0]? =
        some "@backstage/core" ∧
      run1.logs[1]? = some (checkLine "@backstage/theme") ∧
      checkLine "@backstage/theme" ≠ checkLine "@backstage/core" := by
  decide

/-- C6 amended: the checking lines of a run follow the pattern line and
announce, in order, the reverse of the first-encountered manifest names
followed by the lockfile-only names. -/
theorem checking_lines_order (d : Bool) (pn : String) (pat : String → Bool)
    (reg : String → Option Version) (ws : Workspace) :
    ((bumpRun d pn pat reg ws).logs.drop 1).take (processOrder ws pat).length =
      ((firstEncounteredNames ws.manifests pat).reverse ++ lockfileOnlyNames ws pat).map
        checkLine := by
  rw [show ((firstEncounteredNames ws.manifests pat).reverse ++ lockfileOnlyNames ws pat) =
    processOrder ws pat from rfl]
  have key : ∀ rest : List String,
      (passLogs reg (processOrder ws pat) ++ rest).take (processOrder ws pat).length =
        (processOrder ws pat).map checkLine := by
    intro rest
    rw [passLogs, List.append_assoc]
    exact List.take_left' (List.length_map _ _)
  unfold bumpRun
  by_cases h1 : runResolved pat reg ws = []
  · rw [if_pos h1]
    simp only [List.drop_succ_cons, List.drop_zero, List.append_assoc]
    exact key _
  · rw [if_neg h1]
    by_cases h2 : runBumps pat reg ws = []
    · rw [if_pos h2]
      simp only [List.drop_succ_cons, List.drop_zero, List.append_assoc]
      exact key _
    · rw [if_neg h2]
      simp only [List.drop_succ_cons, List.drop_zero, List.append_assoc]
      exact key _

/-- C7: when the registry knows none of the processed names, the run
changes nothing: the workspace is untouched, the install collaborator never
runs, the checking pass is issued exactly twice, and the log is the pattern
line, the two identical passes, and the closing up-to-date line. -/
theorem notfound_run_noop (d : Bool) (pn : String) (pat : String → Bool)
    (reg : String → Option Version) (ws : Workspace)
    (h : ∀ n ∈ processOrder ws pat, reg n = none) :
    (bumpRun d pn pat reg ws).ws = ws ∧
    (bumpRun d pn pat reg ws).install = false ∧
    (bumpRun d pn pat reg ws).queries = processOrder ws pat ++ processOrder ws pat ∧
    (bumpRun d pn pat reg ws).logs =
      ((if d then "Using default pattern glob " else "Using custom pattern glob ") ++ pn) ::
        (passLogs reg (processOrder ws pat) ++ passLogs reg (processOrder ws pat) ++
          [upToDateMsg]) := by
  have h1 : runResolved pat reg ws = [] := by
    unfold runResolved
    exact resolvedOf_eq_nil reg (processOrder ws pat) h
  unfold bumpRun
  rw [if_pos h1]
  exact ⟨rfl, rfl, rfl, rfl⟩

/-- C7 witness: the not-found fixture satisfies the hypothesis and the run
is the documented double pass ending up to date. -/
theorem notfound_run_noop_witness :
    (∀ n ∈ processOrder wsFixture3 patBackstage, regNotFound n = none) ∧
    (run3.ws = wsFixture3 ∧ run3.install = false ∧
      run3.queries = processOrder wsFixture3 patBackstage ++
        processOrder wsFixture3 patBackstage ∧
      run3.logs = ("Using default pattern glob " ++ defaultPatternGlob) ::
        (passLogs regNotFound (processOrder wsFixture3 patBackstage) ++
          passLogs regNotFound (processOrder wsFixture3 patBackstage) ++ [upToDateMsg])) :=
  ⟨fun _ _ => rfl,
    notfound_run_noop true defaultPatternGlob patBackstage regNotFound wsFixture3
      (fun _ _ => rfl)⟩

/-- C9: the companion operation overwrites the version field of the
version-tracking file with the latest registry version of the core
framework package, creating the file from the default shape when it is
absent, and issues exactly one registry query, for that package. -/
theorem bumpBackstageJsonVersion_spec (reg : String → Option Version)
    (existing : Option BackstageJson) (L : Version)
    (h : reg backstageFrameworkPackage = some L) :
    (bumpBackstageJsonVersion reg existing).fst = some (BackstageJson.mk L) ∧
    (bumpBackstageJsonVersion reg existing).snd = [backstageFrameworkPackage] := by
  unfold bumpBackstageJsonVersion
  rw [h]
  exact ⟨rfl, rfl⟩

/-- Registry of the version-tracking tests: the framework package resolves
to 1.4.1. -/
def regBackstageJson : String → Option Version := fun n =>
  if n == backstageFrameworkPackage then some (Version.mk 1 4 1) else none

/-- C9 witness: with the registry of the version-tracking tests and no
existing file, the file is created holding version 1.4.1 after one query. -/
theorem bumpBackstageJsonVersion_spec_witness :
    regBackstageJson backstageFrameworkPackage = some (Version.mk 1 4 1) ∧
    ((bumpBackstageJsonVersion regBackstageJson none).fst =
        some (BackstageJson.mk (Version.mk 1 4 1)) ∧
      (bumpBackstageJsonVersion regBackstageJson none).snd = [backstageFrameworkPackage]) :=
  ⟨by decide,
    bumpBackstageJsonVersion_spec regBackstageJson none (Version.mk 1 4 1) (by decide)⟩

/-- C10 counterexample: in the not-found test the core-api name matches the
pattern, occurs in the lockfile only inside a nested sub-dependency list
(never as a block key and never in a manifest), and the run never queries
it. -/
theorem lock_subdep_query_cex :
    patBackstage "@backstage/core-api" = true ∧
    (depNames wsFixture3.manifests).contains "@backstage/core-api" = false ∧
    (wsFixture3.lockfile.map (fun e => e.name)).contains "@backstage/core-api" = false ∧
    (wsFixture3.lockfile.flatMap (fun e => e.deps.map Prod.fst)).contains
      "@backstage/core-api" = true ∧
    run3.queries.contains "@backstage/core-api" = false := by
  decide

/-- C10 amended: a matched name occurring as a top-level lock entry key is
queried by the run (names occurring only inside nested sub-dependency lists
are not processed), and when the run rewrites the lockfile, each of its
entries is dropped exactly when the latest version satisfies the entry
range while differing from the previously resolved version. -/
theorem lock_only_name_processed (d : Bool) (pn : String) (pat : String → Bool)
    (reg : String → Option Version) (ws : Workspace) (e : LockEntry) (L : Version)
    (he : e ∈ ws.lockfile) (hp : pat e.name = true) (hr : reg e.name = some L)
    (hi : (bumpRun d pn pat reg ws).install = true) :
    e.name ∈ (bumpRun d pn pat reg ws).queries ∧
      (e ∈ (bumpRun d pn pat reg ws).ws.lockfile ↔
        ¬ (satisfies L e.range = true ∧ e.version ≠ L)) := by
  have hmem := mem_processOrder_of_lock ws pat e he hp
  constructor
  · rcases bumpRun_queries_or d pn pat reg ws with hq | hq
    · rw [hq]
      exact hmem
    · rw [hq]
      exact List.mem_append.mpr (Or.inl hmem)
  · rw [ws_of_install d pn pat reg ws hi]
    show e ∈ rewrittenLockfile pat reg ws ↔ _
    rw [mem_rewrittenLockfile]
    constructor
    · rintro ⟨_, hc⟩ hcontra
      rw [(unlockCond_iff pat reg ws e he).mpr ⟨hp, L, hr, hcontra.1, hcontra.2⟩] at hc
      cases hc
    · intro hn
      refine ⟨he, ?_⟩
      cases hu : unlockCond (runResolved pat reg ws) e
      · rfl
      · obtain ⟨_, L2, hr2, hs2, hv2⟩ := (unlockCond_iff pat reg ws e he).mp hu
        rw [hr] at hr2
        injection hr2 with hL2
        rw [← hL2] at hs2 hv2
        exact absurd ⟨hs2, hv2⟩ hn

/-- C10 witness: in the first test the core-api package occurs only as lock
entry keys, is queried, and its entry at range caret 1.0.6 is dropped since
the latest 1.0.7 satisfies the range and differs from 1.0.6. -/
theorem lock_only_name_processed_witness :
    (LockEntry.mk "@backstage/core-api" ⟨⟨1, 0, 6⟩⟩ ⟨1, 0, 6⟩ [] ∈ wsFixture1.lockfile) ∧
    patBackstage "@backstage/core-api" = true ∧
    regFixture "@backstage/core-api" = some ⟨1, 0, 7⟩ ∧
    run1.install = true ∧
    ("@backstage/core-api" ∈ run1.queries ∧
      (LockEntry.mk "@backstage/core-api" ⟨⟨1, 0, 6⟩⟩ ⟨1, 0, 6⟩ [] ∈ run1.ws.lockfile ↔
        ¬ (satisfies ⟨1, 0, 7⟩ ⟨⟨1, 0, 6⟩⟩ = true ∧ (⟨1, 0, 6⟩ : Version) ≠ ⟨1, 0, 7⟩))) :=
  ⟨by decide, by decide, by decide, by decide,
    lock_only_name_processed true defaultPatternGlob patBackstage regFixture wsFixture1
      (LockEntry.mk "@backstage/core-api" ⟨⟨1, 0, 6⟩⟩ ⟨1, 0, 6⟩ []) ⟨1, 0, 7⟩
      (by decide) (by decide) (by decide) (by decide)⟩
